import Mathlib

/-!
Verification development for the placement and balance scheduling core of a
distributed key-value control plane (hot-peer cache, operator steps, balance
scheduler guards, rule checker, coordinator queues and scheduler pausing).

Every definition is a shallow embedding of the corresponding Go function from
the repository sources.  Machine integers become `Int`/`Nat`, float64 rates
become `Rat`, mutation becomes explicit state passing, and `time.Now()`
becomes an explicit `now` argument.  Components of the repository that are
referenced from the embedded files but whose own sources are absent
(the movingaverage package, the TopN container, the storelimit constants,
the placement and core helper types) are modelled from the specification and
carry a doc comment saying so.  Metrics counters and debug logging in the
sources are side-effect-only and are omitted throughout.
-/

set_option linter.unusedVariables false

/-- Flow dimensions of the hot peer statistics: byte rate and key rate. -/
inductive Dim where
  | byte
  | key
deriving DecidableEq, Repr

/-- A pair of per-dimension values, mirroring the `[dimLen]float64` arrays. -/
structure Dims where
  byte : Rat
  key : Rat
deriving DecidableEq, Repr

/-- Index a `Dims` by a `Dim`, mirroring array indexing by `byteDim`/`keyDim`. -/
def Dims.get (d : Dims) : Dim → Rat
  | .byte => d.byte
  | .key => d.key

/-- Flow kind of a hot-peer cache: write flow or read flow. -/
inductive FlowKind where
  | write
  | read
deriving DecidableEq, Repr

/-- Origin of a new cache item: `direct`, `inherit` (from an expired item of a
previous store) or `adopt` (from a sibling store of the same region). -/
inductive SourceKind where
  | direct
  | inherit
  | adopt
deriving DecidableEq, Repr

/-- Source `RegionHeartBeatReportInterval` in seconds.  Modelled from the spec: the
statistics utility constants are not part of the embedded sources; the
heartbeat report interval of the cluster is 60 seconds (the TopN TTL is
`3 * RegionHeartBeatReportInterval` seconds, three heartbeat intervals). -/
def RegionHeartBeatReportInterval : Nat := 60

/-- Source `TopNN`, the capacity of the per-store TopN cache of hot peers. -/
def TopNN : Nat := 60

/-- Source `HotThresholdRatio`, the 0.8 factor applied to the TopN minimum. -/
def hotThresholdRatioV : Rat := 4 / 5

/-- Source `hotRegionAntiCount`, the anti count granted to a hot item. -/
def hotRegionAntiCount : Int := 2

/-- Modelled from the spec: `movingaverage.AvgOverTime` (package absent from
the sources).  It keeps the `(delta, interval)` records added since the last
clear; `Get` is the total delta over the total interval, and it is full once
the recorded intervals cover the average period. -/
structure AvgOverTime where
  records : List (Rat × Nat)
  avgInterval : Nat
deriving DecidableEq, Repr

namespace AvgOverTime

def add (a : AvgOverTime) (delta : Rat) (interval : Nat) : AvgOverTime :=
  { a with records := a.records ++ [(delta, interval)] }

def intervalSum (a : AvgOverTime) : Nat :=
  (a.records.map Prod.snd).sum

def deltaSum (a : AvgOverTime) : Rat :=
  (a.records.map Prod.fst).sum

/-- Average speed over the recorded span (0 when nothing is recorded). -/
def get (a : AvgOverTime) : Rat :=
  a.deltaSum / (a.intervalSum : Rat)

def isFull (a : AvgOverTime) : Bool :=
  a.avgInterval ≤ a.intervalSum

def clear (a : AvgOverTime) : AvgOverTime :=
  { a with records := [] }

end AvgOverTime

/-- Modelled from the spec: `movingaverage.TimeMedian` (package absent from
the sources).  The rolling statistic denoises with a median filter of window
`rollingWindowsSize = 5` over the recent per-heartbeat rates; the model keeps
the added samples, newest first. -/
structure TimeMedian where
  records : List (Rat × Nat)
deriving DecidableEq, Repr

/-- Median of a list of rationals (0 for the empty list). -/
def ratMedian (l : List Rat) : Rat :=
  let s := l.mergeSort (fun a b => decide (a ≤ b))
  s.getD (s.length / 2) 0

namespace TimeMedian

def add (t : TimeMedian) (delta : Rat) (interval : Nat) : TimeMedian :=
  { t with records := (delta, interval) :: t.records }

/-- Modelled from the spec: the denoised rate is the median of the rates of
the last `rollingWindowsSize = 5` samples. -/
def get (t : TimeMedian) : Rat :=
  ratMedian ((t.records.take 5).map (fun r => r.1 / (r.2 : Rat)))

end TimeMedian

/-- Source `dimStat`: rolling statistics of one dimension of a hot peer, holding a
time-median rolling rate and an average-over-time used as the last average. -/
structure DimStat where
  typ : Dim
  Rolling : TimeMedian
  LastAverage : AvgOverTime
deriving DecidableEq, Repr

/-- Source `newDimStat`: fresh rolling statistics for one dimension. -/
def newDimStat (typ : Dim) : DimStat :=
  { typ := typ
    Rolling := { records := [] }
    LastAverage := { records := [], avgInterval := RegionHeartBeatReportInterval } }

namespace DimStat

def add (d : DimStat) (delta : Rat) (interval : Nat) : DimStat :=
  { d with LastAverage := d.LastAverage.add delta interval
           Rolling := d.Rolling.add delta interval }

def isLastAverageHot (d : DimStat) (thresholds : Dims) : Bool :=
  decide (thresholds.get d.typ ≤ d.LastAverage.get)

def isFull (d : DimStat) : Bool :=
  d.LastAverage.isFull

def clearLastAverage (d : DimStat) : DimStat :=
  { d with LastAverage := d.LastAverage.clear }

def get (d : DimStat) : Rat :=
  d.Rolling.get

end DimStat

/-- Source `HotPeerStat` records the statistics of one hot peer.  Times are
modelled as integer timestamps. -/
structure HotPeerStat where
  StoreID : Nat
  RegionID : Nat
  HotDegree : Int
  AntiCount : Int
  Kind : FlowKind
  ByteRate : Rat
  KeyRate : Rat
  rollingByteRate : DimStat
  rollingKeyRate : DimStat
  LastUpdateTime : Int
  needDelete : Bool
  isLeader : Bool
  isNew : Bool
  justTransferLeader : Bool
  interval : Nat
  thresholds : Dims
  peers : List Nat
  lastTransferLeaderTime : Int
  allowAdopt : Bool
  source : SourceKind
deriving DecidableEq, Repr

namespace HotPeerStat

/-- Source `GetByteRate`: the denoised byte rate, rounded as `math.Round` does. -/
def GetByteRate (stat : HotPeerStat) : Rat :=
  ((round stat.rollingByteRate.get : Int) : Rat)

/-- Source `GetKeyRate`: the denoised key rate, rounded as `math.Round` does. -/
def GetKeyRate (stat : HotPeerStat) : Rat :=
  ((round stat.rollingKeyRate.get : Int) : Rat)

/-- Source `isFullAndHot`: some dimension has a full window whose last average
reaches its threshold. -/
def isFullAndHot (stat : HotPeerStat) : Bool :=
  (stat.rollingByteRate.isFull && stat.rollingByteRate.isLastAverageHot stat.thresholds) ||
    (stat.rollingKeyRate.isFull && stat.rollingKeyRate.isLastAverageHot stat.thresholds)

/-- Source `clearLastAverage` on both dimensions. -/
def clearLastAverage (stat : HotPeerStat) : HotPeerStat :=
  { stat with rollingByteRate := stat.rollingByteRate.clearLastAverage
              rollingKeyRate := stat.rollingKeyRate.clearLastAverage }

/-- Source `IsNeedDelete`. -/
def IsNeedDelete (stat : HotPeerStat) : Bool :=
  stat.needDelete

end HotPeerStat

/-- Modelled from the spec: the `TopN` container (its source is absent).  It
stores all put items keyed by their region id; top-N queries are over the `n`
items that are largest in the queried dimension (ordering by byte rate, then
key rate); the TTL machinery is outside the model. -/
structure TopN where
  items : List HotPeerStat
  n : Nat
deriving DecidableEq, Repr

namespace TopN

def empty : TopN := { items := [], n := TopNN }

def Len (t : TopN) : Nat := t.items.length

def Get (t : TopN) (id : Nat) : Option HotPeerStat :=
  t.items.find? (fun s => s.RegionID == id)

def Put (t : TopN) (item : HotPeerStat) : TopN :=
  if t.items.any (fun s => s.RegionID == item.RegionID) then
    { t with items := t.items.map (fun s => if s.RegionID == item.RegionID then item else s) }
  else
    { t with items := t.items ++ [item] }

def Remove (t : TopN) (id : Nat) : TopN :=
  { t with items := t.items.filter (fun s => s.RegionID != id) }

/-- The value of one item in one dimension, as compared by `Less`. -/
def dimValue (k : Dim) (s : HotPeerStat) : Rat :=
  match k with
  | .byte => s.GetByteRate
  | .key => s.GetKeyRate

/-- Source `GetTopNMin k`, projected to its dimension-`k` value: the `n`-th largest
value of the stored items in dimension `k`. -/
def topNMinVal (t : TopN) (k : Dim) : Rat :=
  ((t.items.map (dimValue k)).mergeSort (fun a b => decide (b ≤ a))).getD (t.n - 1) 0

end TopN

/-- Lookup in an association list, mirroring a Go map read. -/
def alLookup {α : Type} (m : List (Nat × α)) (k : Nat) : Option α :=
  (m.find? (fun kv => kv.1 == k)).map (fun kv => kv.2)

/-- Modify the value stored under a key, when present (a Go map entry is
modified in place through its pointer). -/
def alUpdate {α : Type} (m : List (Nat × α)) (k : Nat) (fn : α → α) : List (Nat × α) :=
  m.map (fun kv => if kv.1 == k then (kv.1, fn kv.2) else kv)

/-- Source `hotPeerCache`: per-store TopN of hot peers and the region-to-stores
index. -/
structure HotPeerCache where
  kind : FlowKind
  peersOfStore : List (Nat × TopN)
  storesOfRegion : List (Nat × List Nat)
deriving DecidableEq, Repr

/-- Source `minHotThresholds`: fixed minimum thresholds per flow kind. -/
def minHotThresholds : FlowKind → Dims
  | .write => { byte := 1 * 1024, key := 32 }
  | .read => { byte := 8 * 1024, key := 128 }

namespace HotPeerCache

/-- Source `getOldHotPeerStat`: the cached item of a region on a store. -/
def getOldHotPeerStat (f : HotPeerCache) (regionID storeID : Nat) : Option HotPeerStat :=
  match alLookup f.peersOfStore storeID with
  | some hotPeers => hotPeers.Get regionID
  | none => none

/-- Source `Update`: apply a delete or a put of one item to the cache maps. -/
def Update (f : HotPeerCache) (item : HotPeerStat) : HotPeerCache :=
  if item.IsNeedDelete then
    { f with
      peersOfStore := alUpdate f.peersOfStore item.StoreID (fun peers => peers.Remove item.RegionID)
      storesOfRegion := alUpdate f.storesOfRegion item.RegionID
        (fun stores => stores.filter (fun id => id != item.StoreID)) }
  else
    let peersOfStore :=
      match alLookup f.peersOfStore item.StoreID with
      | some _ => alUpdate f.peersOfStore item.StoreID (fun peers => peers.Put item)
      | none => f.peersOfStore ++ [(item.StoreID, TopN.empty.Put item)]
    let storesOfRegion :=
      match alLookup f.storesOfRegion item.RegionID with
      | some _ => alUpdate f.storesOfRegion item.RegionID
          (fun stores => if stores.contains item.StoreID then stores else stores ++ [item.StoreID])
      | none => f.storesOfRegion ++ [(item.RegionID, [item.StoreID])]
    { f with peersOfStore := peersOfStore, storesOfRegion := storesOfRegion }

/-- Source `calcHotThresholds`: the minimum thresholds while the TopN is under
capacity, otherwise `max(topNMin * 0.8, minThreshold)` per dimension. -/
def calcHotThresholds (f : HotPeerCache) (storeID : Nat) : Dims :=
  let minThresholds := minHotThresholds f.kind
  match alLookup f.peersOfStore storeID with
  | none => minThresholds
  | some tn =>
    if tn.Len < TopNN then minThresholds
    else
      { byte := max (tn.topNMinVal .byte * hotThresholdRatioV) minThresholds.byte
        key := max (tn.topNMinVal .key * hotThresholdRatioV) minThresholds.key }

/-- Source `isOldColdPeer`: the store is one of the old item's peers but the region
is no longer cached for that store. -/
def isOldColdPeer (f : HotPeerCache) (oldItem : HotPeerStat) (storeID : Nat) : Bool :=
  let isOldPeer := oldItem.peers.contains storeID
  let noInCache := !((alLookup f.storesOfRegion oldItem.RegionID).getD []).contains storeID
  isOldPeer && noInCache

/-- Source `updateHotPeerStat`: the per-heartbeat update of one item.  `bytes` and
`keys` are the flow deltas of the heartbeat, `interval` its length in
seconds, and `now` the current timestamp (for `time.Now()`). -/
def updateHotPeerStat (f : HotPeerCache) (newItem : HotPeerStat)
    (oldItem : Option HotPeerStat) (bytes keys : Rat) (interval : Nat) (now : Int) :
    Option HotPeerStat :=
  if newItem.needDelete then
    some newItem
  else
    match oldItem with
    | none =>
      if interval = 0 then
        none
      else
        let isHot := decide (newItem.thresholds.byte ≤ bytes / (interval : Rat)) ||
          decide (newItem.thresholds.key ≤ keys / (interval : Rat))
        if !isHot then
          none
        else
          let newItem :=
            if RegionHeartBeatReportInterval ≤ interval then
              { newItem with HotDegree := 1, AntiCount := hotRegionAntiCount, allowAdopt := true }
            else
              newItem
          let newItem :=
            { newItem with
              isNew := true
              rollingByteRate := (newDimStat .byte).add bytes interval
              rollingKeyRate := (newDimStat .key).add keys interval }
          let newItem :=
            if newItem.rollingKeyRate.isFull then newItem.clearLastAverage else newItem
          some newItem
    | some oldItem =>
      let newItem :=
        if newItem.source = .adopt then
          { newItem with
            rollingByteRate := oldItem.rollingByteRate
            rollingKeyRate := oldItem.rollingKeyRate
            allowAdopt := false }
        else
          { newItem with
            rollingByteRate := oldItem.rollingByteRate
            rollingKeyRate := oldItem.rollingKeyRate
            allowAdopt := oldItem.allowAdopt }
      if newItem.justTransferLeader then
        -- skip the first heartbeat flow statistic after transfer leader;
        -- keep anti count and hot degree, stamp the transfer time
        some { newItem with
               HotDegree := oldItem.HotDegree
               AntiCount := oldItem.AntiCount
               lastTransferLeaderTime := now }
      else
        let newItem :=
          { newItem with
            lastTransferLeaderTime := oldItem.lastTransferLeaderTime
            rollingByteRate := newItem.rollingByteRate.add bytes interval
            rollingKeyRate := newItem.rollingKeyRate.add keys interval }
        if !newItem.rollingKeyRate.isFull then
          some { newItem with HotDegree := oldItem.HotDegree, AntiCount := oldItem.AntiCount }
        else
          let newItem :=
            if f.isOldColdPeer oldItem newItem.StoreID then
              if newItem.isFullAndHot then
                { newItem with HotDegree := 1, allowAdopt := true, AntiCount := hotRegionAntiCount }
              else
                { newItem with needDelete := true }
            else
              if newItem.isFullAndHot then
                { newItem with
                  HotDegree := oldItem.HotDegree + 1
                  AntiCount := hotRegionAntiCount
                  allowAdopt := true }
              else
                let newItem :=
                  { newItem with
                    HotDegree := oldItem.HotDegree - 1
                    AntiCount := oldItem.AntiCount - 1 }
                if newItem.AntiCount ≤ 0 then
                  { newItem with needDelete := true }
                else
                  { newItem with allowAdopt := true }
          some newItem.clearLastAverage

end HotPeerCache

/-- A region peer: identity and hosting store. -/
structure Peer where
  id : Nat
  storeId : Nat
deriving DecidableEq, Repr

/-- One entry of a region's down-peer list (`pdpb.PeerStats`). -/
structure DownPeerStat where
  peer : Peer
  downSeconds : Nat
deriving DecidableEq, Repr

/-- The region information carried by a heartbeat, restricted to the fields
the embedded functions read.  Keys are byte strings modelled as `List Nat`;
an empty key is unbounded. -/
structure RegionInfo where
  id : Nat
  startKey : List Nat
  endKey : List Nat
  peers : List Peer
  leader : Option Peer
  pendingPeers : List Peer
  downPeers : List DownPeerStat
  approximateSize : Int
deriving DecidableEq, Repr

/-- Go `bytes.Compare a b < 0`: strict lexicographic order on byte strings. -/
def lexLt : List Nat → List Nat → Bool
  | [], [] => false
  | [], _ :: _ => true
  | _ :: _, [] => false
  | a :: as, b :: bs => if a < b then true else if b < a then false else lexLt as bs

/-- The two actions metered by the store limit. -/
inductive StoreLimitType where
  | addPeer
  | removePeer
deriving DecidableEq, Repr

/-- Modelled from the spec: `storelimit.SmallRegionThreshold`, the special-case
cost charged for removing a peer from a down store (the storelimit package is
absent from the sources; the concrete value does not matter to the claims). -/
def SmallRegionThreshold : Int := 20

/-- Source `core.StoreInfluence`: the bookkeeping delta an operator step applies to
one store.  Modelled from the spec where the core package is absent: the step
costs are the amounts debited from the per-action store-limit buckets. -/
structure StoreInfluence where
  LeaderSize : Int
  LeaderCount : Int
  RegionSize : Int
  RegionCount : Int
  addPeerStepCost : Int
  removePeerStepCost : Int
deriving DecidableEq, Repr

namespace StoreInfluence

/-- Modelled from the spec: `AdjustStepCost` records the given cost against
the per-action store-limit bucket of the store (token-bucket accounting; the
bucket capacity check happens at admission, outside this bookkeeping). -/
def AdjustStepCost (s : StoreInfluence) (t : StoreLimitType) (cost : Int) : StoreInfluence :=
  match t with
  | .addPeer => { s with addPeerStepCost := s.addPeerStepCost + cost }
  | .removePeer => { s with removePeerStepCost := s.removePeerStepCost + cost }

end StoreInfluence

/-- Source `OpInfluence`: per-store influences, a total map defaulting to zeros. -/
def OpInfluence : Type := Nat → StoreInfluence

/-- Source `GetStoreInfluence`. -/
def OpInfluence.GetStoreInfluence (inf : OpInfluence) (id : Nat) : StoreInfluence :=
  inf id

/-- Source `RemovePeer` is an OpStep that removes a region peer.  The source
file carries unresolved merge markers for this struct; the embedded variant is
the one with `IsDownStore`, which the `Influence` body in the same file
requires. -/
structure RemovePeer where
  FromStore : Nat
  PeerID : Nat
  IsDownStore : Bool
deriving DecidableEq, Repr

/-- Source `RemovePeer.Influence`: the source store loses the region size and count,
and its remove-peer bucket is debited by `SmallRegionThreshold` for a down
store and by the region size otherwise. -/
def RemovePeer.Influence (rp : RemovePeer) (opInfluence : OpInfluence)
    (region : RegionInfo) : OpInfluence :=
  fun id =>
    if id = rp.FromStore then
      let from0 := opInfluence.GetStoreInfluence rp.FromStore
      let regionSize := region.approximateSize
      let from1 := { from0 with
                     RegionSize := from0.RegionSize - regionSize
                     RegionCount := from0.RegionCount - 1 }
      if rp.IsDownStore then
        from1.AdjustStepCost .removePeer SmallRegionThreshold
      else
        from1.AdjustStepCost .removePeer regionSize
    else
      opInfluence.GetStoreInfluence id

/-- Source `core.ResourceKind`. -/
inductive ResourceKind where
  | leader
  | region
deriving DecidableEq, Repr

/-- Source `core.SchedulePolicy`. -/
inductive SchedulePolicy where
  | byCount
  | bySize
deriving DecidableEq, Repr

/-- Source `core.ScheduleKind`. -/
structure ScheduleKind where
  resource : ResourceKind
  policy : SchedulePolicy
deriving DecidableEq, Repr

/-- Modelled from the spec: `core.StoreInfluence.ResourceProperty`, the
influence component matching a schedule kind (leader count, leader size or
region size). -/
def StoreInfluence.resourceProperty (s : StoreInfluence) (kind : ScheduleKind) : Int :=
  match kind.resource with
  | .leader =>
    match kind.policy with
    | .byCount => s.LeaderCount
    | .bySize => s.LeaderSize
  | .region => s.RegionSize

/-- Go `int64(f)` on a float: truncation toward zero. -/
def goTrunc (q : Rat) : Int :=
  if 0 ≤ q then ⌊q⌋ else -⌊-q⌋

/-- Source `adjustRatio = 0.005`. -/
def adjustRatioV : Rat := 5 / 1000

/-- Source `leaderTolerantSizeRatio = 5.0`. -/
def leaderTolerantSizeRatioV : Rat := 5

/-- Source `minTolerantSizeRatio = 1.0`. -/
def minTolerantSizeRatioV : Rat := 1

/-- A store as seen by the balance schedulers.  The score formulas live in
the absent core package, so they are modelled as abstract score functions:
`leaderScoreFn policy delta` and
`regionScoreFn version highSpace lowSpace delta deltaCount`. -/
structure BalStore where
  id : Nat
  leaderScoreFn : SchedulePolicy → Int → Rat
  regionScoreFn : String → Rat → Rat → Int → Int → Rat

/-- The cluster view used by `shouldBalance` and `getTolerantResource`.
`rangeTolerantCfg` is the separate tolerant-size-ratio configuration of a
`RangeCluster`, when the cluster is one. -/
structure BalCluster where
  formulaVersion : String
  highSpaceRate : Rat
  lowSpaceRate : Rat
  tolerantSizeCfg : Rat
  rangeTolerantCfg : Option Rat
  storeIds : List Nat
  regionCountOf : Nat → Nat
  averageRegionSize : Int

/-- Source `adjustTolerantRatio`: the configured ratio, or, when it is zero, the
maximum per-store region count times 0.005 floored at 1. -/
def adjustTolerantRatioFn (cluster : BalCluster) : Rat :=
  let tolerantSizeRat :=
    match cluster.rangeTolerantCfg with
    | some q => q
    | none => cluster.tolerantSizeCfg
  if tolerantSizeRat = 0 then
    let maxRegionCount : Rat :=
      cluster.storeIds.foldl (fun m id => max m ((cluster.regionCountOf id : Rat))) 0
    let derived := maxRegionCount * adjustRatioV
    if derived < minTolerantSizeRatioV then minTolerantSizeRatioV else derived
  else
    tolerantSizeRat

/-- Source `getTolerantResource`. -/
def getTolerantResource (cluster : BalCluster) (region : RegionInfo)
    (kind : ScheduleKind) : Int :=
  let tolerantSizeRat := adjustTolerantRatioFn cluster
  if kind.resource = .leader ∧ kind.policy = .byCount then
    let tolerantSizeRat :=
      if tolerantSizeRat = 0 then leaderTolerantSizeRatioV else tolerantSizeRat
    goTrunc (1 * tolerantSizeRat)
  else
    let regionSize :=
      if region.approximateSize < cluster.averageRegionSize then
        cluster.averageRegionSize
      else
        region.approximateSize
    goTrunc ((regionSize : Rat) * tolerantSizeRat)

/-- Source `shouldBalance`: compare the source and target scores after applying the
influences shifted by the tolerant resource.  Returns the decision and the
two scores (the debug-metrics block of the source only exports gauges). -/
def shouldBalance (cluster : BalCluster) (source target : BalStore)
    (region : RegionInfo) (kind : ScheduleKind) (opInfluence : OpInfluence) :
    Bool × Rat × Rat :=
  let sourceID := source.id
  let targetID := target.id
  let tolerantResource := getTolerantResource cluster region kind
  let sourceInfluence := (opInfluence.GetStoreInfluence sourceID).resourceProperty kind
  let targetInfluence := (opInfluence.GetStoreInfluence targetID).resourceProperty kind
  let sourceDelta := sourceInfluence - tolerantResource
  let targetDelta := targetInfluence + tolerantResource
  let scores :=
    match kind.resource with
    | .leader =>
      (source.leaderScoreFn kind.policy sourceDelta, target.leaderScoreFn kind.policy targetDelta)
    | .region =>
      (source.regionScoreFn cluster.formulaVersion cluster.highSpaceRate cluster.lowSpaceRate
         sourceDelta (-1),
       target.regionScoreFn cluster.formulaVersion cluster.highSpaceRate cluster.lowSpaceRate
         targetDelta 1)
  (decide (scores.2 < scores.1), scores.1, scores.2)

/-- A store as seen by the rule checker: identity, up state and down time
(seconds since its last heartbeat). -/
structure CStore where
  id : Nat
  isUp : Bool
  downTime : Rat
deriving DecidableEq, Repr

/-- The cluster view used by the rule checker. -/
structure CheckerCluster where
  stores : List CStore
  maxStoreDownTime : Rat
deriving DecidableEq, Repr

/-- Source `GetStore`. -/
def CheckerCluster.getStore (c : CheckerCluster) (id : Nat) : Option CStore :=
  c.stores.find? (fun s => s.id == id)

/-- One rule fit of a region fit.  `satisfied` is modelled from the spec:
`placement.RuleFit.IsSatisfied` holds when the rule is matched in both count
and role (the placement package is absent from the sources). -/
structure RuleFit where
  satisfied : Bool
  peers : List Peer
deriving DecidableEq, Repr

/-- Source `placement.RegionFit`, restricted to the parts the orphan fixer reads. -/
structure RegionFit where
  ruleFits : List RuleFit
  orphanPeers : List Peer
deriving DecidableEq, Repr

/-- The `isUnhealthyPeer` closure of `fixOrphanPeers`: the peer id is in the
region's pending list or down list. -/
def isUnhealthyPeer (region : RegionInfo) (id : Nat) : Bool :=
  region.pendingPeers.any (fun p => p.id == id) ||
    region.downPeers.any (fun d => d.peer.id == id)

/-- The `hasUnhealthyFit` scan of `fixOrphanPeers`: some rule fit is
unsatisfied or selects a pending or down peer. -/
def hasUnhealthyFit (region : RegionInfo) (fit : RegionFit) : Bool :=
  fit.ruleFits.any (fun rf =>
    !rf.satisfied || rf.peers.any (fun p => isUnhealthyPeer region p.id))

/-- Source `RuleChecker.fixOrphanPeers`, returning the store of the peer the emitted
remove-orphan-peer operator removes (the operator factory lives in the absent
operator creation file and is modelled as returning that store). -/
def fixOrphanPeers (region : RegionInfo) (fit : RegionFit) : Option Nat :=
  match fit.orphanPeers with
  | [] => none
  | firstOrphan :: _ =>
    if !hasUnhealthyFit region fit then
      some firstOrphan.storeId
    else if 2 ≤ fit.orphanPeers.length then
      (fit.orphanPeers.find? (fun p => isUnhealthyPeer region p.id)).map (fun p => p.storeId)
    else
      none

/-- The loop body of `RuleChecker.isDownPeer` over the down-peer list. -/
def isDownPeerLoop (c : CheckerCluster) (peer : Peer) : List DownPeerStat → Bool
  | [] => false
  | stats :: rest =>
    if stats.peer.id ≠ peer.id then
      isDownPeerLoop c peer rest
    else
      match c.getStore peer.storeId with
      | none => false
      | some store =>
        if store.downTime < c.maxStoreDownTime then
          isDownPeerLoop c peer rest
        else
          true

/-- Source `RuleChecker.isDownPeer`. -/
def isDownPeer (c : CheckerCluster) (region : RegionInfo) (peer : Peer) : Bool :=
  isDownPeerLoop c peer region.downPeers

/-- Source `RuleChecker.isOfflinePeer`. -/
def isOfflinePeer (c : CheckerCluster) (region : RegionInfo) (peer : Peer) : Bool :=
  match c.getStore peer.storeId with
  | none => false
  | some store => !store.isUp

/-- Modelled from the spec: `keyutil.BuildKeyRangeKey` concatenates the two
keys with a delimiter (the keyutil package is absent from the sources). -/
def buildKeyRangeKey (startKey endKey : List Nat) : List Nat :=
  startKey ++ [45] ++ endKey

/-- The coordinator state the suspect-key-range check reads and writes: the
queue of suspect key ranges (keyed entries, popped from the front) and the
suspect region set. -/
structure CoordState where
  suspectKeyRanges : List (List Nat × (List Nat × List Nat))
  suspectRegions : List Nat
deriving DecidableEq, Repr

/-- Source `coordinator.checkSuspectKeyRanges`: pop one suspect key range, scan the
covering regions (limit 1024), mark them all suspect, and re-enqueue the
uncovered remainder of the range.  `scanRegions` stands for
`cluster.ScanRegions` (the region store is outside the embedded sources). -/
def checkSuspectKeyRanges
    (scanRegions : List Nat → List Nat → Nat → List RegionInfo)
    (st : CoordState) : CoordState :=
  match st.suspectKeyRanges with
  | [] => st
  | (_, (rangeStart, rangeEnd)) :: rest =>
    let limit := 1024
    match scanRegions rangeStart rangeEnd limit with
    | [] => { st with suspectKeyRanges := rest }
    | r0 :: rs =>
      let regionIDList := (r0 :: rs).map (fun r => r.id)
      let lastRegion := rs.getLastD r0
      let suspectKeyRanges :=
        if lastRegion.endKey ≠ [] ∧ lexLt lastRegion.endKey rangeEnd = true then
          rest ++ [(buildKeyRangeKey lastRegion.endKey rangeEnd, (lastRegion.endKey, rangeEnd))]
        else
          rest
      { suspectKeyRanges := suspectKeyRanges
        suspectRegions := st.suspectRegions ++ regionIDList }

/-- Errors surfaced by the coordinator scheduler registry. -/
inductive PDErr where
  | notBootstrapped
  | schedulerNotFound
deriving DecidableEq, Repr

/-- A `scheduleController`: its scheduler name, its pause deadline
(`delayUntil`, a unix timestamp) and whether its scheduler currently allows
scheduling. -/
structure SchedCtl where
  name : String
  delayUntil : Int
  isScheduleAllowed : Bool
deriving DecidableEq, Repr

/-- The coordinator scheduler registry. -/
structure Coord where
  bootstrapped : Bool
  schedulers : List SchedCtl
deriving DecidableEq, Repr

/-- Source `scheduleController.IsPaused`: the current time is before the pause
deadline. -/
def SchedCtl.IsPaused (s : SchedCtl) (now : Int) : Bool :=
  decide (now < s.delayUntil)

/-- Source `scheduleController.AllowSchedule`: the scheduler allows scheduling and
the controller is not paused. -/
def SchedCtl.AllowSchedule (s : SchedCtl) (now : Int) : Bool :=
  s.isScheduleAllowed && !s.IsPaused now

/-- Source `coordinator.pauseOrResumeScheduler`: pause the named scheduler (or all)
for `t` seconds, or resume it when `t ≤ 0`.  Returns the updated registry and
the error, the registry being untouched on error. -/
def pauseOrResumeScheduler (c : Coord) (name : String) (t : Int) (now : Int) :
    Coord × Option PDErr :=
  if !c.bootstrapped then
    (c, some .notBootstrapped)
  else
    let delayUntilOf : SchedCtl → SchedCtl := fun sc =>
      { sc with delayUntil := if 0 < t then now + t else 0 }
    if name ≠ "all" then
      if c.schedulers.any (fun sc => sc.name == name) then
        ({ c with schedulers :=
             c.schedulers.map (fun sc => if sc.name == name then delayUntilOf sc else sc) },
         none)
      else
        (c, some .schedulerNotFound)
    else
      ({ c with schedulers := c.schedulers.map delayUntilOf }, none)

/-- The full-and-hot test of `updateHotPeerStat` as seen from its inputs: the
state of one dimension after the heartbeat sample is added to the old rolling
statistics, compared against the new item's thresholds. -/
def afterAddFullAndHot (oldItem : HotPeerStat) (thresholds : Dims)
    (bytes keys : Rat) (interval : Nat) : Bool :=
  let b := oldItem.rollingByteRate.add bytes interval
  let k := oldItem.rollingKeyRate.add keys interval
  (b.isFull && b.isLastAverageHot thresholds) || (k.isFull && k.isLastAverageHot thresholds)

/-- Concrete byte-dimension rolling statistics: half a window recorded. -/
def dimByteEx : DimStat :=
  { typ := .byte
    Rolling := { records := [(100000, 30)] }
    LastAverage := { records := [(100000, 30)], avgInterval := 60 } }

/-- Concrete key-dimension rolling statistics: half a window recorded. -/
def dimKeyEx : DimStat :=
  { typ := .key
    Rolling := { records := [(3000, 30)] }
    LastAverage := { records := [(3000, 30)], avgInterval := 60 } }

/-- A concrete cached hot-peer item of region 7 on store 2. -/
def oldEx1 : HotPeerStat :=
  { StoreID := 2
    RegionID := 7
    HotDegree := 3
    AntiCount := 2
    Kind := .write
    ByteRate := 0
    KeyRate := 0
    rollingByteRate := dimByteEx
    rollingKeyRate := dimKeyEx
    LastUpdateTime := 0
    needDelete := false
    isLeader := true
    isNew := false
    justTransferLeader := false
    interval := 30
    thresholds := { byte := 1024, key := 32 }
    peers := [2, 3, 4]
    lastTransferLeaderTime := 0
    allowAdopt := true
    source := .direct }

/-- The new item built for the same heartbeat (fresh statistics fields). -/
def newItemEx1 : HotPeerStat :=
  { oldEx1 with
    HotDegree := 0
    AntiCount := 0
    allowAdopt := false
    rollingByteRate := newDimStat .byte
    rollingKeyRate := newDimStat .key }

/-- A concrete write-flow cache holding `oldEx1`. -/
def fEx1 : HotPeerCache :=
  { kind := .write
    peersOfStore := [(2, { items := [oldEx1], n := TopNN })]
    storesOfRegion := [(7, [2])] }

/-- A fresh new item used for the no-old-item paths: zero statistics, write
thresholds, no transfer-leader flag. -/
def newItemEx6 : HotPeerStat :=
  { newItemEx1 with justTransferLeader := false, needDelete := false }

/-- A concrete balance cluster with an unconfigured tolerant size ratio and a
single empty store, making the auto-derived ratio bottom out at 1. -/
def cEx3 : BalCluster :=
  { formulaVersion := "v2"
    highSpaceRate := 7 / 10
    lowSpaceRate := 8 / 10
    tolerantSizeCfg := 0
    rangeTolerantCfg := none
    storeIds := [1]
    regionCountOf := fun _ => 0
    averageRegionSize := 96 }

/-- A concrete region of approximate size 96. -/
def rEx3 : RegionInfo :=
  { id := 1
    startKey := []
    endKey := []
    peers := []
    leader := none
    pendingPeers := []
    downPeers := []
    approximateSize := 96 }

/-- A region with one healthy fit peer, one pending peer and one orphan. -/
def regionEx5 : RegionInfo :=
  { id := 9
    startKey := []
    endKey := []
    peers := [⟨1, 1⟩, ⟨2, 2⟩, ⟨3, 3⟩, ⟨4, 4⟩]
    leader := some ⟨1, 1⟩
    pendingPeers := [⟨2, 2⟩]
    downPeers := []
    approximateSize := 10 }

/-- A fit whose single rule selects the pending peer, with one orphan. -/
def fitEx5 : RegionFit :=
  { ruleFits := [{ satisfied := true, peers := [⟨1, 1⟩, ⟨2, 2⟩, ⟨3, 3⟩] }]
    orphanPeers := [⟨4, 4⟩] }

/-- A concrete checker cluster: store 3 is up but long down on heartbeats,
store 4 is offline. -/
def cEx7 : CheckerCluster :=
  { stores := [⟨3, true, 4000⟩, ⟨4, false, 0⟩]
    maxStoreDownTime := 1800 }

/-- A region whose down-peer list contains the peer on store 3. -/
def regionEx7 : RegionInfo :=
  { id := 11
    startKey := []
    endKey := []
    peers := [⟨31, 3⟩, ⟨41, 4⟩]
    leader := some ⟨41, 4⟩
    pendingPeers := []
    downPeers := [⟨⟨31, 3⟩, 600⟩]
    approximateSize := 10 }

/-- Two concrete scanned regions for the suspect-key-range check. -/
def regionEx8a : RegionInfo :=
  { id := 5, startKey := [10], endKey := [20], peers := [], leader := none
    pendingPeers := [], downPeers := [], approximateSize := 0 }

def regionEx8b : RegionInfo :=
  { id := 6, startKey := [20], endKey := [30], peers := [], leader := none
    pendingPeers := [], downPeers := [], approximateSize := 0 }

/-- A concrete region scan returning the two regions above. -/
def scanEx : List Nat → List Nat → Nat → List RegionInfo :=
  fun _ _ _ => [regionEx8a, regionEx8b]

/-- A coordinator state with one queued suspect key range `[[10], [40])`. -/
def stEx8 : CoordState :=
  { suspectKeyRanges := [([1], ([10], [40]))]
    suspectRegions := [] }

/-- A concrete scheduler controller. -/
def schedEx : SchedCtl :=
  { name := "balance-region-scheduler", delayUntil := 0, isScheduleAllowed := true }

/-- A concrete bootstrapped coordinator registry. -/
def coordEx : Coord :=
  { bootstrapped := true, schedulers := [schedEx] }

/-- The new item of a heartbeat arriving just after a leader transfer. -/
def newItemEx9 : HotPeerStat :=
  { newItemEx1 with justTransferLeader := true }

theorem alLookup_alUpdate_self {α : Type} (m : List (Nat × α)) (k : Nat) (fn : α → α) :
    alLookup (alUpdate m k fn) k = (alLookup m k).map fn := by
  induction m with
  | nil => rfl
  | cons kv t ih =>
    obtain ⟨k1, v⟩ := kv
    by_cases h : k1 = k
    · subst h
      simp only [alUpdate, alLookup, List.map_cons] at *
      rw [if_pos (by simp)]
      rw [List.find?_cons_of_pos _ (by simp), List.find?_cons_of_pos _ (by simp)]
      rfl
    · have hb : (k1 == k) = false := by simpa using h
      simp only [alUpdate, alLookup, List.map_cons] at *
      rw [if_neg (by simp [hb])]
      rw [List.find?_cons_of_neg _ (by simp [hb]), List.find?_cons_of_neg _ (by simp [hb])]
      exact ih

theorem contains_filter_bne (l : List Nat) (s : Nat) :
    ((l.filter (fun id => id != s)).contains s) = false := by
  simp [List.contains, List.elem_iff]

theorem topn_get_remove (t : TopN) (id : Nat) : (t.Remove id).Get id = none := by
  simp only [TopN.Remove, TopN.Get, List.find?_eq_none]
  intro x hx
  simp only [List.mem_filter] at hx
  simpa using hx.2

/-- A deleted item is gone from both cache maps after `Update`. -/
theorem update_delete_removes (f : HotPeerCache) (item : HotPeerStat)
    (hd : item.needDelete = true) :
    (f.Update item).getOldHotPeerStat item.RegionID item.StoreID = none ∧
      ((alLookup (f.Update item).storesOfRegion item.RegionID).getD []).contains
        item.StoreID = false := by
  have hnd : item.IsNeedDelete = true := hd
  constructor
  · simp only [HotPeerCache.Update, hnd, if_pos, HotPeerCache.getOldHotPeerStat]
    rw [alLookup_alUpdate_self]
    cases h : alLookup f.peersOfStore item.StoreID with
    | none => simp
    | some tn => simp [topn_get_remove]
  · simp only [HotPeerCache.Update, hnd, if_pos]
    rw [alLookup_alUpdate_self]
    cases h : alLookup f.storesOfRegion item.RegionID with
    | none => simp
    | some ids => simp [contains_filter_bne]

/-- Claim C2: for every region and every RemovePeer step, `Influence` debits
the source store's RemovePeer store-limit bucket by `SmallRegionThreshold`
when the step's IsDownStore flag is true, and by the region's approximate
size otherwise; in both cases it also decrements the source store's region
count by one and its region size by the region's approximate size. -/
theorem removePeer_influence_spec (rp : RemovePeer) (opInfluence : OpInfluence)
    (region : RegionInfo) :
    ((rp.Influence opInfluence region) rp.FromStore).removePeerStepCost =
        (opInfluence rp.FromStore).removePeerStepCost +
          (if rp.IsDownStore then SmallRegionThreshold else region.approximateSize) ∧
    ((rp.Influence opInfluence region) rp.FromStore).RegionCount =
        (opInfluence rp.FromStore).RegionCount - 1 ∧
    ((rp.Influence opInfluence region) rp.FromStore).RegionSize =
        (opInfluence rp.FromStore).RegionSize - region.approximateSize := by
  by_cases h : rp.IsDownStore <;>
    simp [RemovePeer.Influence, OpInfluence.GetStoreInfluence, StoreInfluence.AdjustStepCost, h]

theorem isDownPeerLoop_iff (c : CheckerCluster) (peer : Peer) (l : List DownPeerStat) :
    isDownPeerLoop c peer l = true ↔
      ((∃ d ∈ l, d.peer.id = peer.id) ∧
        ∃ s, c.getStore peer.storeId = some s ∧ c.maxStoreDownTime ≤ s.downTime) := by
  induction l with
  | nil => simp [isDownPeerLoop]
  | cons d rest ih =>
    simp only [isDownPeerLoop]
    by_cases h : d.peer.id = peer.id
    · rw [if_neg (by simp [h])]
      cases hs : c.getStore peer.storeId with
      | none => simp [hs]
      | some s =>
        by_cases hd : s.downTime < c.maxStoreDownTime
        · simp [ih, hs, hd, not_le.mpr hd]
        · simp only [if_neg hd]
          constructor
          · intro _
            exact ⟨⟨d, by simp, h⟩, s, rfl, le_of_not_lt hd⟩
          · intro _
            trivial
    · rw [if_pos h, ih]
      simp [h]

/-- Claim C7: `isDownPeer` holds exactly when the region's down-peer list
contains the peer and the peer's store exists with down time at least the
configured `maxStoreDownTime`; `isOfflinePeer` holds exactly when the peer's
store exists and is not up. -/
theorem isDownPeer_isOfflinePeer_spec (c : CheckerCluster) (region : RegionInfo) (peer : Peer) :
    (isDownPeer c region peer = true ↔
      ((∃ d ∈ region.downPeers, d.peer.id = peer.id) ∧
        ∃ s, c.getStore peer.storeId = some s ∧ c.maxStoreDownTime ≤ s.downTime)) ∧
    (isOfflinePeer c region peer = true ↔
      ∃ s, c.getStore peer.storeId = some s ∧ s.isUp = false) := by
  constructor
  · exact isDownPeerLoop_iff c peer region.downPeers
  · simp only [isOfflinePeer]
    cases hs : c.getStore peer.storeId with
    | none => simp [hs]
    | some s => simp [hs]

/-- Claim C10: for a name other than "all" that matches no registered
scheduler, `pauseOrResumeScheduler` returns the scheduler-not-found error and
leaves the registry (hence every pause deadline) unchanged; for registered
schedulers, `t ≤ 0` resets the deadline to 0 so `IsPaused` is false at any
non-negative time, while `t > 0` sets the deadline `t` seconds into the
future, during which `AllowSchedule` is false. -/
theorem pauseOrResumeScheduler_spec (c : Coord) (name : String) (t now : Int)
    (hboot : c.bootstrapped = true) :
    ((name ≠ "all" → (∀ sc ∈ c.schedulers, sc.name ≠ name) →
        pauseOrResumeScheduler c name t now = (c, some .schedulerNotFound)) ∧
     (name ≠ "all" → t ≤ 0 →
        ∀ sc ∈ (pauseOrResumeScheduler c name t now).1.schedulers, sc.name = name →
          sc.delayUntil = 0 ∧ ∀ now2 : Int, 0 ≤ now2 → sc.IsPaused now2 = false) ∧
     (name ≠ "all" → 0 < t →
        ∀ sc ∈ (pauseOrResumeScheduler c name t now).1.schedulers, sc.name = name →
          sc.delayUntil = now + t ∧
            ∀ now2 : Int, now ≤ now2 → now2 < now + t → sc.AllowSchedule now2 = false)) := by
  refine ⟨?_, ?_, ?_⟩
  · intro hname hnone
    have hany : c.schedulers.any (fun sc => sc.name == name) = false := by
      simp only [List.any_eq_false]
      intro sc hsc
      simpa using hnone sc hsc
    simp [pauseOrResumeScheduler, hboot, hname, hany]
  · intro hname ht sc hsc hscname
    by_cases hany : c.schedulers.any (fun sc => sc.name == name) = true
    · simp only [pauseOrResumeScheduler, hboot, Bool.not_true, Bool.false_eq_true, if_false,
        if_pos hname, hany, if_pos, List.mem_map] at hsc
      obtain ⟨sc0, hsc0, hmap⟩ := hsc
      by_cases h0 : sc0.name = name
      · rw [if_pos (by simpa using h0)] at hmap
        subst hmap
        refine ⟨by simp [if_neg (not_lt.mpr ht)], ?_⟩
        intro now2 hnow2
        simp [SchedCtl.IsPaused, if_neg (not_lt.mpr ht)]
        omega
      · rw [if_neg (by simpa using h0)] at hmap
        subst hmap
        exact absurd hscname h0
    · simp only [pauseOrResumeScheduler, hboot, Bool.not_true, Bool.false_eq_true, if_false,
        if_pos hname, hany, Bool.false_eq_true, if_false] at hsc
      exfalso
      have : c.schedulers.any (fun sc => sc.name == name) = true := by
        simp only [List.any_eq_true]
        exact ⟨sc, hsc, by simpa using hscname⟩
      exact hany this
  · intro hname ht sc hsc hscname
    by_cases hany : c.schedulers.any (fun sc => sc.name == name) = true
    · simp only [pauseOrResumeScheduler, hboot, Bool.not_true, Bool.false_eq_true, if_false,
        if_pos hname, hany, if_pos, List.mem_map] at hsc
      obtain ⟨sc0, hsc0, hmap⟩ := hsc
      by_cases h0 : sc0.name = name
      · rw [if_pos (by simpa using h0)] at hmap
        subst hmap
        refine ⟨by simp [if_pos ht], ?_⟩
        intro now2 hlo hhi
        simp only [SchedCtl.AllowSchedule, SchedCtl.IsPaused, if_pos ht]
        have : now2 < now + t := hhi
        simp [this]
      · rw [if_neg (by simpa using h0)] at hmap
        subst hmap
        exact absurd hscname h0
    · simp only [pauseOrResumeScheduler, hboot, Bool.not_true, Bool.false_eq_true, if_false,
        if_pos hname, hany, Bool.false_eq_true, if_false] at hsc
      exfalso
      have : c.schedulers.any (fun sc => sc.name == name) = true := by
        simp only [List.any_eq_true]
        exact ⟨sc, hsc, by simpa using hscname⟩
      exact hany this

/-- Claim C10 witness: pausing the only registered scheduler for 10 seconds
at time 100 sets its deadline to 110 and blocks scheduling at time 105. -/
theorem pauseOrResumeScheduler_spec_witness :
    ((pauseOrResumeScheduler coordEx "balance-region-scheduler" 10 100).1.schedulers.map
        (fun sc => (sc.delayUntil, sc.AllowSchedule 105))) = [(110, false)] := by
  have h := (pauseOrResumeScheduler_spec coordEx "balance-region-scheduler" 10 100 rfl).2.2
    (by decide) (by decide)
  have hres : (pauseOrResumeScheduler coordEx "balance-region-scheduler" 10 100).1.schedulers =
      [{ name := "balance-region-scheduler", delayUntil := 110, isScheduleAllowed := true }] := by
    simp [pauseOrResumeScheduler, coordEx, schedEx]
  obtain ⟨hdelay, hallow⟩ := h _ (by rw [hres]; exact List.mem_singleton.mpr rfl) rfl
  rw [hres]
  simp only [List.map_cons, List.map_nil]
  rw [hallow 105 (by decide) (by decide)]

/-- Claim C4: `calcHotThresholds` returns the flow kind's fixed minimum
thresholds whenever the store's TopN holds fewer than `TopNN = 60` items (in
particular when the store has no TopN), and otherwise, per dimension, the
maximum of 0.8 times the TopN minimum rate in that dimension and the minimum
threshold of that dimension. -/
theorem calcHotThresholds_spec (f : HotPeerCache) (storeID : Nat) :
    (((alLookup f.peersOfStore storeID).map TopN.Len).getD 0 < TopNN →
       f.calcHotThresholds storeID = minHotThresholds f.kind) ∧
    (∀ tn, alLookup f.peersOfStore storeID = some tn → TopNN ≤ tn.Len →
       f.calcHotThresholds storeID =
         { byte := max (tn.topNMinVal .byte * hotThresholdRatioV) (minHotThresholds f.kind).byte
           key := max (tn.topNMinVal .key * hotThresholdRatioV) (minHotThresholds f.kind).key }) := by
  cases h : alLookup f.peersOfStore storeID with
  | none =>
    refine ⟨fun _ => ?_, fun tn htn _ => ?_⟩
    · simp [HotPeerCache.calcHotThresholds, h]
    · cases htn
  | some tn =>
    refine ⟨fun hlen => ?_, fun tn2 htn2 hge => ?_⟩
    · have hlen2 : tn.Len < TopNN := by simpa using hlen
      simp [HotPeerCache.calcHotThresholds, h, hlen2]
    · cases htn2
      simp [HotPeerCache.calcHotThresholds, h, if_neg (not_lt.mpr hge)]

/-- Claim C4 witness: a store with no TopN yields the write-flow minimum
thresholds. -/
theorem calcHotThresholds_spec_witness :
    HotPeerCache.calcHotThresholds { kind := .write, peersOfStore := [], storesOfRegion := [] } 1 =
      { byte := 1024, key := 32 } := by
  have h := (calcHotThresholds_spec
    { kind := .write, peersOfStore := [], storesOfRegion := [] } 1).1 (by simp [alLookup, TopNN])
  rw [h]
  norm_num [minHotThresholds]

/-- Claim C5: with at least one orphan peer, if every rule fit is satisfied
and none of the fit-selected peers is pending or down, the rule checker
removes an orphan peer (the first one); otherwise it removes an unhealthy
orphan only when at least two orphans exist (and then only an unhealthy one),
and removes nothing when there is exactly one orphan. -/
theorem fixOrphanPeers_spec (region : RegionInfo) (fit : RegionFit)
    (hne : fit.orphanPeers ≠ []) :
    (hasUnhealthyFit region fit = false →
       ∃ p, fit.orphanPeers.head? = some p ∧ fixOrphanPeers region fit = some p.storeId) ∧
    (hasUnhealthyFit region fit = true →
       (fit.orphanPeers.length = 1 → fixOrphanPeers region fit = none) ∧
       (∀ s, fixOrphanPeers region fit = some s →
          2 ≤ fit.orphanPeers.length ∧
            ∃ p ∈ fit.orphanPeers, isUnhealthyPeer region p.id = true ∧ p.storeId = s) ∧
       (2 ≤ fit.orphanPeers.length →
          (∃ p ∈ fit.orphanPeers, isUnhealthyPeer region p.id = true) →
          ∃ s, fixOrphanPeers region fit = some s)) := by
  obtain ⟨rfs, ops⟩ := fit
  obtain ⟨p0, rest, hcons⟩ := List.exists_cons_of_ne_nil hne
  simp only at hcons
  subst hcons
  constructor
  · intro hh
    refine ⟨p0, rfl, ?_⟩
    simp [fixOrphanPeers, hh]
  · intro hh
    refine ⟨?_, ?_, ?_⟩
    · intro hlen
      have hrest : rest = [] := by simpa using hlen
      subst hrest
      simp [fixOrphanPeers, hh]
    · intro s hs
      by_cases h2 : 2 ≤ (p0 :: rest).length
      · simp only [fixOrphanPeers, hh, Bool.not_true, Bool.false_eq_true, if_false,
          if_pos h2, Option.map_eq_some'] at hs
        obtain ⟨p, hfind, hps⟩ := hs
        have hup : isUnhealthyPeer region p.id = true := by
          simpa using List.find?_some hfind
        exact ⟨h2, p, List.mem_of_find?_eq_some hfind, hup, hps⟩
      · have hrest : rest = [] := by
          rcases rest with _ | ⟨r1, rs⟩
          · rfl
          · exact absurd (by simp) h2
        subst hrest
        simp [fixOrphanPeers, hh] at hs
    · intro h2 hex
      have hr : rest ≠ [] := by
        intro hrest
        subst hrest
        simp at h2
      have hsome : ((p0 :: rest).find? (fun p => isUnhealthyPeer region p.id)).isSome := by
        rw [List.find?_isSome]
        obtain ⟨p, hp, hup⟩ := hex
        exact ⟨p, hp, hup⟩
      obtain ⟨p, hp⟩ := Option.isSome_iff_exists.mp hsome
      refine ⟨p.storeId, ?_⟩
      simp [fixOrphanPeers, hh, hp, hr]

/-- Claim C5 witness: one orphan, one rule fit selecting a pending peer — no
operator is emitted. -/
theorem fixOrphanPeers_spec_witness : fixOrphanPeers regionEx5 fitEx5 = none := by
  have h := ((fixOrphanPeers_spec regionEx5 fitEx5 (by decide)).2 (by decide)).1 (by decide)
  exact h

/-- Claim C8: when `checkSuspectKeyRanges` pops a suspect key range and the
limit-1024 scan over it is non-empty, every scanned region id is added to the
suspect-region set, and when the last scanned region's end key is non-empty
and strictly below the range end, the remainder is re-enqueued keyed by
`buildKeyRangeKey`; an empty scan adds nothing. -/
theorem checkSuspectKeyRanges_spec
    (scanRegions : List Nat → List Nat → Nat → List RegionInfo) (st : CoordState)
    (k rangeStart rangeEnd : List Nat) (rest : List (List Nat × (List Nat × List Nat)))
    (hq : st.suspectKeyRanges = (k, (rangeStart, rangeEnd)) :: rest) :
    (scanRegions rangeStart rangeEnd 1024 = [] →
       checkSuspectKeyRanges scanRegions st =
         { st with suspectKeyRanges := rest }) ∧
    (∀ r0 rs, scanRegions rangeStart rangeEnd 1024 = r0 :: rs →
       (∀ r ∈ r0 :: rs, r.id ∈ (checkSuspectKeyRanges scanRegions st).suspectRegions) ∧
       ((rs.getLastD r0).endKey ≠ [] ∧ lexLt (rs.getLastD r0).endKey rangeEnd = true →
          (buildKeyRangeKey (rs.getLastD r0).endKey rangeEnd,
             ((rs.getLastD r0).endKey, rangeEnd)) ∈
            (checkSuspectKeyRanges scanRegions st).suspectKeyRanges)) := by
  constructor
  · intro hscan
    simp [checkSuspectKeyRanges, hq, hscan]
  · intro r0 rs hscan
    constructor
    · intro r hr
      simp only [checkSuspectKeyRanges, hq, hscan, List.mem_append]
      right
      simp only [List.mem_map]
      exact ⟨r, hr, rfl⟩
    · intro hcond
      simp only [checkSuspectKeyRanges, hq, hscan]
      rw [if_pos hcond]
      simp

/-- Claim C8 witness: scanning the queued range `[[10], [40])` yields regions
5 and 6 ending at key `[30]`; both become suspect and the remainder
`[[30], [40])` is re-enqueued under its range key. -/
theorem checkSuspectKeyRanges_spec_witness :
    (6 ∈ (checkSuspectKeyRanges scanEx stEx8).suspectRegions) ∧
    ((buildKeyRangeKey [30] [40], ([30], [40])) ∈
       (checkSuspectKeyRanges scanEx stEx8).suspectKeyRanges) := by
  have h := (checkSuspectKeyRanges_spec scanEx stEx8 [1] [10] [40] [] rfl).2
    regionEx8a [regionEx8b] rfl
  constructor
  · exact h.1 regionEx8b (by simp) 
  · have h2 := h.2 (by decide)
    simpa [regionEx8b] using h2

theorem adjustTolerantRatioFn_ne_zero (cluster : BalCluster) :
    adjustTolerantRatioFn cluster ≠ 0 := by
  unfold adjustTolerantRatioFn
  by_cases h : (match cluster.rangeTolerantCfg with
    | some q => q
    | none => cluster.tolerantSizeCfg) = 0
  · rw [if_pos h]
    dsimp only
    split
    · norm_num [minTolerantSizeRatioV]
    · rename_i hge
      intro heq
      rw [heq] at hge
      exact hge (by norm_num [minTolerantSizeRatioV])
  · rw [if_neg h]
    exact h

theorem if_lt_max (a b : Int) : (if a < b then b else a) = max a b := by
  rcases le_or_lt b a with h | h
  · rw [if_neg (not_lt.mpr h), max_eq_left h]
  · rw [if_pos h, max_eq_right (le_of_lt h)]

/-- Claim C3 (amended): `shouldBalance` compares the source score at
`sourceInfluence - tolerant` against the target score at
`targetInfluence + tolerant` and accepts exactly when the former is strictly
greater; the tolerant resource for leader-by-count scheduling is the
truncation of the tolerant size ratio itself (configured, or auto-derived as
`maxRegionCount * 0.005` floored at 1 when unconfigured) — the constant
`leaderTolerantSizeRatio = 5` fallback is reachable only for a zero ratio,
which `adjustTolerantRatio` never produces — and for every other schedule
kind it is the truncation of
`max(region approximate size, average region size) * ratio`. -/
theorem shouldBalance_tolerant_spec (cluster : BalCluster) (source target : BalStore)
    (region : RegionInfo) (opInfluence : OpInfluence) :
    (∀ pol : SchedulePolicy,
       ((shouldBalance cluster source target region ⟨.leader, pol⟩ opInfluence).1 = true ↔
         target.leaderScoreFn pol
             ((opInfluence target.id).resourceProperty ⟨.leader, pol⟩ +
               getTolerantResource cluster region ⟨.leader, pol⟩) <
           source.leaderScoreFn pol
             ((opInfluence source.id).resourceProperty ⟨.leader, pol⟩ -
               getTolerantResource cluster region ⟨.leader, pol⟩))) ∧
    (∀ pol : SchedulePolicy,
       ((shouldBalance cluster source target region ⟨.region, pol⟩ opInfluence).1 = true ↔
         target.regionScoreFn cluster.formulaVersion cluster.highSpaceRate cluster.lowSpaceRate
             ((opInfluence target.id).resourceProperty ⟨.region, pol⟩ +
               getTolerantResource cluster region ⟨.region, pol⟩) 1 <
           source.regionScoreFn cluster.formulaVersion cluster.highSpaceRate cluster.lowSpaceRate
             ((opInfluence source.id).resourceProperty ⟨.region, pol⟩ -
               getTolerantResource cluster region ⟨.region, pol⟩) (-1))) ∧
    (getTolerantResource cluster region ⟨.leader, .byCount⟩ =
       goTrunc (adjustTolerantRatioFn cluster)) ∧
    (getTolerantResource cluster region ⟨.leader, .bySize⟩ =
       goTrunc (((max region.approximateSize cluster.averageRegionSize : Int) : Rat) *
         adjustTolerantRatioFn cluster)) ∧
    (∀ pol : SchedulePolicy,
       getTolerantResource cluster region ⟨.region, pol⟩ =
         goTrunc (((max region.approximateSize cluster.averageRegionSize : Int) : Rat) *
           adjustTolerantRatioFn cluster)) := by
  refine ⟨?_, ?_, ?_, ?_, ?_⟩
  · intro pol
    simp [shouldBalance, OpInfluence.GetStoreInfluence]
  · intro pol
    simp [shouldBalance, OpInfluence.GetStoreInfluence]
  · simp only [getTolerantResource]
    rw [if_pos (by simp)]
    rw [if_neg (adjustTolerantRatioFn_ne_zero cluster), one_mul]
  · simp only [getTolerantResource]
    rw [if_neg (by rintro ⟨-, h⟩; cases h)]
    rw [if_lt_max]
  · intro pol
    simp only [getTolerantResource]
    rw [if_neg (by rintro ⟨h, -⟩; cases h)]
    rw [if_lt_max]

/-- Claim C3 counterexample: with an unconfigured tolerant size ratio and a
single store holding no regions, the leader-by-count tolerant resource is the
auto-derived floor 1, not the constant 5 the claim states. -/
theorem getTolerantResource_leader_not_five :
    getTolerantResource cEx3 rEx3 ⟨.leader, .byCount⟩ = 1 ∧
    getTolerantResource cEx3 rEx3 ⟨.leader, .byCount⟩ ≠ 5 := by
  have h : getTolerantResource cEx3 rEx3 ⟨.leader, .byCount⟩ = 1 := by
    norm_num [getTolerantResource, adjustTolerantRatioFn, cEx3, rEx3, adjustRatioV,
      minTolerantSizeRatioV, leaderTolerantSizeRatioV, goTrunc]
  refine ⟨h, ?_⟩
  rw [h]
  decide

/-- Claim C9: on a heartbeat with `justTransferLeader` and a non-expired old
item, `updateHotPeerStat` keeps HotDegree and AntiCount from the old item,
adds no new sample to the rolling statistics (both rolling dimensions stay
exactly the old item's), and only stamps `lastTransferLeaderTime` with the
current time. -/
theorem updateHotPeerStat_transfer_leader_spec (f : HotPeerCache)
    (newItem oldItem : HotPeerStat) (bytes keys : Rat) (interval : Nat) (now : Int)
    (hnd : newItem.needDelete = false) (hjt : newItem.justTransferLeader = true) :
    ∃ r, f.updateHotPeerStat newItem (some oldItem) bytes keys interval now = some r ∧
      r.HotDegree = oldItem.HotDegree ∧ r.AntiCount = oldItem.AntiCount ∧
      r.rollingByteRate = oldItem.rollingByteRate ∧
      r.rollingKeyRate = oldItem.rollingKeyRate ∧
      r.lastTransferLeaderTime = now := by
  by_cases hs : newItem.source = .adopt <;>
    simp [HotPeerCache.updateHotPeerStat, hnd, hjt, hs]

/-- Claim C9 witness: after a leader transfer, HotDegree and AntiCount stay
the cached 3 and 2 and the transfer time is stamped 77, with the rolling
samples untouched. -/
theorem updateHotPeerStat_transfer_leader_spec_witness :
    ((HotPeerCache.updateHotPeerStat fEx1 newItemEx9 (some oldEx1) 5 5 30 77).map
        (fun r => (r.HotDegree, r.AntiCount, r.lastTransferLeaderTime,
          r.rollingKeyRate == oldEx1.rollingKeyRate))) = some (3, 2, 77, true) := by
  obtain ⟨r, hr, h1, h2, h3, h4, h5⟩ :=
    updateHotPeerStat_transfer_leader_spec fEx1 newItemEx9 oldEx1 5 5 30 77 rfl rfl
  rw [hr, Option.map_some', h1, h2, h4, h5]
  rw [show (oldEx1.rollingKeyRate == oldEx1.rollingKeyRate) = true from by
    rw [beq_iff_eq]]
  rfl

/-- Claim C6 (amended): with no old item, a zero interval or two sub-threshold
instantaneous rates create no item; a rate at or above a threshold creates an
item with `isNew = true`, which gets `HotDegree = 1`, `AntiCount = 2` and
`allowAdopt = true` only when the interval reaches
`RegionHeartBeatReportInterval` — for a shorter non-zero interval those three
fields are left as the new item carried them (zero-valued in practice). -/
theorem updateHotPeerStat_new_item_spec (f : HotPeerCache) (newItem : HotPeerStat)
    (bytes keys : Rat) (interval : Nat) (now : Int)
    (hnd : newItem.needDelete = false) :
    (interval = 0 → f.updateHotPeerStat newItem none bytes keys interval now = none) ∧
    (interval ≠ 0 → bytes / (interval : Rat) < newItem.thresholds.byte →
       keys / (interval : Rat) < newItem.thresholds.key →
       f.updateHotPeerStat newItem none bytes keys interval now = none) ∧
    (interval ≠ 0 →
       (newItem.thresholds.byte ≤ bytes / (interval : Rat) ∨
         newItem.thresholds.key ≤ keys / (interval : Rat)) →
       RegionHeartBeatReportInterval ≤ interval →
       ∃ r, f.updateHotPeerStat newItem none bytes keys interval now = some r ∧
         r.HotDegree = 1 ∧ r.AntiCount = 2 ∧ r.allowAdopt = true ∧ r.isNew = true) ∧
    (interval ≠ 0 →
       (newItem.thresholds.byte ≤ bytes / (interval : Rat) ∨
         newItem.thresholds.key ≤ keys / (interval : Rat)) →
       interval < RegionHeartBeatReportInterval →
       ∃ r, f.updateHotPeerStat newItem none bytes keys interval now = some r ∧
         r.isNew = true ∧ r.HotDegree = newItem.HotDegree ∧
         r.AntiCount = newItem.AntiCount ∧ r.allowAdopt = newItem.allowAdopt) := by
  have hhotb : ∀ h : (newItem.thresholds.byte ≤ bytes / (interval : Rat) ∨
      newItem.thresholds.key ≤ keys / (interval : Rat)),
      (decide (newItem.thresholds.byte ≤ bytes / (interval : Rat)) ||
        decide (newItem.thresholds.key ≤ keys / (interval : Rat))) = true := by
    intro h
    rcases h with h | h
    · exact Bool.or_eq_true_iff.mpr (Or.inl (decide_eq_true h))
    · exact Bool.or_eq_true_iff.mpr (Or.inr (decide_eq_true h))
  refine ⟨?_, ?_, ?_, ?_⟩
  · intro h0
    simp [HotPeerCache.updateHotPeerStat, hnd, h0]
  · intro h0 hb hk
    simp [HotPeerCache.updateHotPeerStat, hnd, h0, not_le.mpr hb, not_le.mpr hk]
  · intro h0 hhot hge
    by_cases hfull : (((newDimStat .key).add keys interval).isFull : Bool) = true <;>
      simp [HotPeerCache.updateHotPeerStat, hnd, h0, hhotb hhot, hge, hfull,
        HotPeerStat.clearLastAverage, hotRegionAntiCount]
  · intro h0 hhot hlt
    by_cases hfull : (((newDimStat .key).add keys interval).isFull : Bool) = true <;>
      simp [HotPeerCache.updateHotPeerStat, hnd, h0, hhotb hhot, not_le.mpr hlt, hfull,
        HotPeerStat.clearLastAverage]

/-- Claim C6 witness: a full-interval heartbeat with byte rate above the
threshold creates a fresh hot item with degree 1 and anti count 2. -/
theorem updateHotPeerStat_new_item_spec_witness :
    ((HotPeerCache.updateHotPeerStat fEx1 newItemEx6 none 102400 0 60 0).map
        (fun r => (r.HotDegree, r.AntiCount, r.allowAdopt, r.isNew))) =
      some (1, 2, true, true) := by
  obtain ⟨r, hr, h1, h2, h3, h4⟩ :=
    (updateHotPeerStat_new_item_spec fEx1 newItemEx6 102400 0 60 0 rfl).2.2.1
      (by norm_num)
      (Or.inl (by norm_num [newItemEx6, newItemEx1, oldEx1]))
      (by norm_num [RegionHeartBeatReportInterval])
  rw [hr, Option.map_some', h1, h2, h3, h4]

/-- Claim C6 counterexample: a 30-second heartbeat whose instantaneous byte
rate is far above the threshold still creates the item with
`HotDegree = 0`, `AntiCount = 0` and `allowAdopt = false` (only
`isNew = true`), because the interval is below
`RegionHeartBeatReportInterval`; the claim as stated requires
`HotDegree = 1`, `AntiCount = 2`, `allowAdopt = true`. -/
theorem updateHotPeerStat_new_item_short_interval_cex :
    newItemEx6.thresholds.byte ≤ (1000000 : Rat) / ((30 : Nat) : Rat) ∧
    ((HotPeerCache.updateHotPeerStat fEx1 newItemEx6 none 1000000 1000000 30 0).map
        (fun r => (r.HotDegree, r.AntiCount, r.allowAdopt, r.isNew))) =
      some (0, 0, false, true) := by
  constructor
  · norm_num [newItemEx6, newItemEx1, oldEx1]
  · norm_num [HotPeerCache.updateHotPeerStat, newItemEx6, newItemEx1, oldEx1,
      newDimStat, DimStat.add, DimStat.isFull, AvgOverTime.add, AvgOverTime.isFull,
      AvgOverTime.intervalSum, TimeMedian.add, RegionHeartBeatReportInterval,
      hotRegionAntiCount, HotPeerStat.clearLastAverage]

/-- Claim C1: for a cache entry with an existing old item (so the store is
recorded for the region) whose rolling window is full after the heartbeat
sample, a hot last average yields `HotDegree + 1` with `AntiCount` reset to
2, a cold one yields `HotDegree - 1` and `AntiCount - 1` with `needDelete`
set exactly when the new `AntiCount` is at most 0, and `Update` then removes
a to-delete item from both `peersOfStore` and `storesOfRegion`. -/
theorem updateHotPeerStat_full_window_spec (f : HotPeerCache)
    (newItem oldItem : HotPeerStat) (bytes keys : Rat) (interval : Nat) (now : Int)
    (hnd : newItem.needDelete = false)
    (hjt : newItem.justTransferLeader = false)
    (hmem : ((alLookup f.storesOfRegion oldItem.RegionID).getD []).contains
      newItem.StoreID = true)
    (hfull : (oldItem.rollingKeyRate.add keys interval).isFull = true) :
    (afterAddFullAndHot oldItem newItem.thresholds bytes keys interval = true →
       ((f.updateHotPeerStat newItem (some oldItem) bytes keys interval now).map
           (fun r => (r.HotDegree, r.AntiCount))) = some (oldItem.HotDegree + 1, 2)) ∧
    (afterAddFullAndHot oldItem newItem.thresholds bytes keys interval = false →
       ((f.updateHotPeerStat newItem (some oldItem) bytes keys interval now).map
           (fun r => (r.HotDegree, r.AntiCount, r.needDelete))) =
         some (oldItem.HotDegree - 1, oldItem.AntiCount - 1,
           decide (oldItem.AntiCount - 1 ≤ 0))) ∧
    (∀ r, f.updateHotPeerStat newItem (some oldItem) bytes keys interval now = some r →
       r.needDelete = true →
       (f.Update r).getOldHotPeerStat r.RegionID r.StoreID = none ∧
         ((alLookup (f.Update r).storesOfRegion r.RegionID).getD []).contains
           r.StoreID = false) := by
  have hmem2 : newItem.StoreID ∈ (alLookup f.storesOfRegion oldItem.RegionID).getD [] := by
    simpa [List.contains, List.elem_iff] using hmem
  have hcold : f.isOldColdPeer oldItem newItem.StoreID = false := by
    simp [HotPeerCache.isOldColdPeer, List.contains, List.elem_iff, hmem2]
  refine ⟨?_, ?_, fun r _ hd => update_delete_removes f r hd⟩
  · intro hhot
    simp only [afterAddFullAndHot] at hhot
    rcases Bool.or_eq_true_iff.mp hhot with hcase | hcase
    · obtain ⟨hb1, hb2⟩ := (Bool.and_eq_true _ _).mp hcase
      by_cases hs : newItem.source = .adopt <;>
        simp [HotPeerCache.updateHotPeerStat, hnd, hjt, hs, hfull, hcold, hb1, hb2,
          HotPeerStat.isFullAndHot, HotPeerStat.clearLastAverage, hotRegionAntiCount]
    · have hk : (oldItem.rollingKeyRate.add keys interval).isLastAverageHot
          newItem.thresholds = true := by
        rw [hfull] at hcase
        simpa using hcase
      by_cases hs : newItem.source = .adopt <;>
        simp [HotPeerCache.updateHotPeerStat, hnd, hjt, hs, hfull, hcold, hk,
          HotPeerStat.isFullAndHot, HotPeerStat.clearLastAverage, hotRegionAntiCount]
  · intro hhot
    simp only [afterAddFullAndHot] at hhot
    obtain ⟨hX, hY⟩ := Bool.or_eq_false_iff.mp hhot
    have hk : (oldItem.rollingKeyRate.add keys interval).isLastAverageHot
        newItem.thresholds = false := by
      rw [hfull] at hY
      simpa using hY
    have hb : ¬((oldItem.rollingByteRate.add bytes interval).isFull = true ∧
        (oldItem.rollingByteRate.add bytes interval).isLastAverageHot
          newItem.thresholds = true) := by
      rw [← Bool.and_eq_true]
      simp [hX]
    by_cases hanti : oldItem.AntiCount - 1 ≤ 0 <;>
      by_cases hs : newItem.source = .adopt <;>
        simp [HotPeerCache.updateHotPeerStat, hnd, hjt, hs, hfull, hcold, hk, hb,
          HotPeerStat.isFullAndHot, HotPeerStat.clearLastAverage, hanti]

/-- Claim C1 witness: region 7 on store 2, cached with degree 3 and a
half-full window, gets a hot half-window sample: the window fills, the last
average is hot, and the item moves to degree 4 with anti count 2. -/
theorem updateHotPeerStat_full_window_spec_witness :
    ((HotPeerCache.updateHotPeerStat fEx1 newItemEx1 (some oldEx1) 100000 3000 30 0).map
        (fun r => (r.HotDegree, r.AntiCount))) = some (4, 2) := by
  have h := (updateHotPeerStat_full_window_spec fEx1 newItemEx1 oldEx1 100000 3000 30 0
    rfl rfl (by decide) (by decide)).1
    (by norm_num [afterAddFullAndHot, oldEx1, newItemEx1, dimByteEx, dimKeyEx,
      DimStat.add, DimStat.isFull, DimStat.isLastAverageHot, AvgOverTime.add,
      AvgOverTime.isFull, AvgOverTime.intervalSum, AvgOverTime.get, AvgOverTime.deltaSum,
      Dims.get, TimeMedian.add])
  rw [h]
  norm_num [oldEx1]
